import Mathlib

/-!
# AssessmentAssist: question document model and validators

Shallow embedding of the question data model and the two validators of the
AssessmentAssist repository:

* the client-side validator `validateQuestion` (src/types + utils,
  `validateQuestion`), a pure function producing `{isValid, errors}`;
* the schema-side validator (demoSchema.js): the Mongoose field-level rules
  of `questionSchema` (required / conditional-required / count / URL-format
  checks, modelled as `schemaFieldErrors`) followed by the pre-save invariant
  hook (`preSaveError`).

Strings follow the JS semantics used by the code: a string field guarded by a
Mongoose `trim: true` setter is stored trimmed, so every schema-side check is
stated on the trimmed value; JS truthiness of an optional string (absent or
empty is falsy) is modelled by `optPresent`.

The `createdBy` author reference required by the Mongoose schema is not part
of the in-memory TypeScript `Question` model; persistence is modelled for a
document whose `createdBy` is supplied (and valid) by the caller, so it does
not appear below.
-/

inductive Purpose
  | formative
  | summative
deriving DecidableEq, Repr

inductive BloomsLevel
  | remember
  | understand
  | apply
  | analyze
  | evaluate
  | create
deriving DecidableEq, Repr

inductive QuestionType
  | mcq
  | ordering
  | hotspot
deriving DecidableEq, Repr

/-- MCQ option (`MCQOption` in src/types): `feedback` is optional in the type,
required by validation only for formative questions. -/
structure MCQOption where
  id : String
  text : String
  isCorrect : Bool
  feedback : Option String
deriving DecidableEq, Repr

/-- Ordering item (`OrderingItem` in src/types). `order` is a JS number used
as an integer index. -/
structure OrderingItem where
  id : String
  text : String
  order : Int
deriving DecidableEq, Repr

/-- A point of a hotspot zone polygon; coordinates are produced by
`Math.round`, hence integers. -/
structure Coordinate where
  x : Int
  y : Int
deriving DecidableEq, Repr

/-- Hotspot zone (`HotspotZone` in src/types). -/
structure HotspotZone where
  id : String
  coordinates : List Coordinate
  label : Option String
deriving DecidableEq, Repr

/-- The base fields shared by all question variants (`BaseQuestion` in
src/types). -/
structure BaseQuestion where
  id : String
  purpose : Purpose
  stem : String
  topic : Option String := none
  learningObjective : Option String := none
  bloomsLevel : Option BloomsLevel := none
deriving DecidableEq, Repr

/-- The tagged union `Question = MCQQuestion | OrderingQuestion |
HotspotQuestion` (src/types), discriminated by `type`. The hotspot variant
carries the optional `imageUrl`. -/
inductive Question
  | mcq (base : BaseQuestion) (options : List MCQOption)
  | ordering (base : BaseQuestion) (items : List OrderingItem)
  | hotspot (base : BaseQuestion) (zones : List HotspotZone) (imageUrl : Option String)
deriving DecidableEq, Repr

/-- The base-field record of a question. -/
def Question.base : Question → BaseQuestion
  | .mcq b _ => b
  | .ordering b _ => b
  | .hotspot b _ _ => b

/-- The discriminating `type` tag of a question. -/
def Question.qtype : Question → QuestionType
  | .mcq _ _ => .mcq
  | .ordering _ _ => .ordering
  | .hotspot _ _ _ => .hotspot

/-- Replace the base fields of a question, keeping its variant payload. -/
def Question.withBase : Question → BaseQuestion → Question
  | .mcq _ opts, b => .mcq b opts
  | .ordering _ its, b => .ordering b its
  | .hotspot _ zs u, b => .hotspot b zs u

/-- The items of an ordering question (`[]` for the other variants). -/
def Question.itemsOf : Question → List OrderingItem
  | .ordering _ its => its
  | _ => []

/-- The number of variant sub-entities (options / items / zones). -/
def Question.subItemCount : Question → Nat
  | .mcq _ opts => opts.length
  | .ordering _ its => its.length
  | .hotspot _ zs _ => zs.length

/-- The JS `String.prototype.trim` whitespace set: WhiteSpace (space, tab,
vertical tab, form feed, no-break space, BOM, Unicode space separators) plus
LineTerminator (LF, CR, LS, PS). -/
def isJsWhitespace (c : Char) : Bool :=
  c = ' ' || c = '\t' || c = '\n' || c = Char.ofNat 0x0b || c = Char.ofNat 0x0c ||
    c = '\r' || c = Char.ofNat 0xa0 || c = Char.ofNat 0x1680 ||
    (Char.ofNat 0x2000 ≤ c && c ≤ Char.ofNat 0x200a) ||
    c = Char.ofNat 0x2028 || c = Char.ofNat 0x2029 || c = Char.ofNat 0x202f ||
    c = Char.ofNat 0x205f || c = Char.ofNat 0x3000 || c = Char.ofNat 0xfeff

/-- Drop JS whitespace from both ends of a character list. -/
def trimChars (l : List Char) : List Char :=
  ((l.dropWhile isJsWhitespace).reverse.dropWhile isJsWhitespace).reverse

/-- `s.trim()` of JS, the normalization applied by Mongoose `trim: true`
setters before validation. -/
def jsTrim (s : String) : String := String.mk (trimChars s.data)

/-- JS falsiness of `s.trim()`: true exactly when `s` is empty or all
whitespace. -/
def blank (s : String) : Bool := (jsTrim s).data.isEmpty

/-- JS truthiness of an optional string after `?.trim()`: `x?.trim()` is
truthy exactly when the string is present and non-empty after trimming. -/
def optPresent : Option String → Bool
  | none => false
  | some s => !blank s

/-- Result shape of the client-side validator: `{ isValid, errors }`. -/
structure ValidationResult where
  isValid : Bool
  errors : List String
deriving DecidableEq, Repr

/-- Base-field errors of `validateQuestion` (src/types utils, lines 112-125):
stem required; for summative purpose, learning objective and Blooms level
required. Error strings and order are those of the source. -/
def clientBaseErrors (b : BaseQuestion) : List String :=
  (if blank b.stem then ["Question stem is required"] else [])
    ++ (if b.purpose = Purpose.summative then
          (if optPresent b.learningObjective then []
           else ["Learning objective is required for summative questions"])
            ++ (if b.bloomsLevel = none then
                  ["Bloom\x27s level is required for summative questions"]
                else [])
        else [])

/-- MCQ branch of `validateQuestion` (lines 129-146): some option correct,
all options non-empty text, and for formative purpose all options have
feedback. -/
def clientMcqErrors (p : Purpose) (options : List MCQOption) : List String :=
  (if options.any (fun o => o.isCorrect) then []
   else ["At least one option must be marked as correct"])
    ++ (if options.any (fun o => blank o.text) then ["All options must have text"]
        else [])
    ++ (if p = Purpose.formative then
          (if options.any (fun o => !optPresent o.feedback) then
             ["All options must have feedback for formative questions"]
           else [])
        else [])

/-- Ordering branch of `validateQuestion` (lines 148-157): all items have
text, and at least 2 items. -/
def clientOrderingErrors (items : List OrderingItem) : List String :=
  (if items.any (fun it => blank it.text) then ["All items must have text"]
   else [])
    ++ (if items.length < 2 then ["Ordering questions must have at least 2 items"]
        else [])

/-- Hotspot branch of `validateQuestion` (lines 159-163): at least one zone. -/
def clientHotspotErrors (zones : List HotspotZone) : List String :=
  if zones.length = 0 then ["At least one hotspot zone is required"] else []

/-- The client-side validator `validateQuestion` (src/types utils, lines
109-170): accumulates all applicable errors; valid iff no error. -/
def validateQuestion (q : Question) : ValidationResult :=
  let errors :=
    match q with
    | .mcq b opts => clientBaseErrors b ++ clientMcqErrors b.purpose opts
    | .ordering b its => clientBaseErrors b ++ clientOrderingErrors its
    | .hotspot b zs _ => clientBaseErrors b ++ clientHotspotErrors zs
  { isValid := errors.isEmpty, errors := errors }

example :
    validateQuestion
      (.mcq { id := "q1", purpose := .formative, stem := "Which?" }
        [{ id := "a", text := "Red", isCorrect := true, feedback := some "yes" },
         { id := "b", text := "Blue", isCorrect := false, feedback := some "no" }]) =
    { isValid := true, errors := [] } := by decide

example :
    (validateQuestion
      (.mcq { id := "q1", purpose := .summative, stem := " " } [])).errors =
    ["Question stem is required",
     "Learning objective is required for summative questions",
     "Bloom\x27s level is required for summative questions",
     "At least one option must be marked as correct"] := by decide

/-- JS regex `.` rejects the four LineTerminator characters. -/
def isLineTerminator (c : Char) : Bool :=
  c = '\n' || c = '\r' || c = Char.ofNat 0x2028 || c = Char.ofNat 0x2029

/-- Remove an expected leading character sequence, or fail. -/
def afterLiteral : List Char → List Char → Option (List Char)
  | [], l => some l
  | _ :: _, [] => none
  | c :: ps, d :: ls => if c = d then afterLiteral ps ls else none

/-- The JS regex fragment `.+` anchored at the start: at least one character,
and `.` does not match a line terminator. -/
def dotPlusAtStart : List Char → Bool
  | [] => false
  | c :: _ => !isLineTerminator c

/-- Semantics of the JS test `/^https?:\/\/.+/.test s`: the string starts
with `http://` or `https://`, followed by at least one character that is not
a line terminator. -/
def matchesHttpUrl (s : String) : Bool :=
  match afterLiteral "https://".data s.data with
  | some rest => dotPlusAtStart rest
  | none =>
    match afterLiteral "http://".data s.data with
    | some rest => dotPlusAtStart rest
    | none => false

/-- The `imageUrl` field validator of `questionSchema` (demoSchema.js lines
135-144): on the stored (trimmed) value, `!url || /^https?:\/\/.+/.test(url)`;
violations produce the custom message. -/
def imageUrlError (u : Option String) : List String :=
  match u with
  | none => []
  | some s =>
    if blank s || matchesHttpUrl (jsTrim s) then []
    else ["Image URL must be a valid HTTP/HTTPS URL"]

/-- Mongoose field-level errors on the base fields (demoSchema.js lines
5-48): `stem` is required (and trimmed, so a whitespace-only stem fails);
`learningObjective` and `bloomsLevel` are required exactly when the document
purpose is summative. Messages are the Mongoose defaults. -/
def schemaBaseErrors (b : BaseQuestion) : List String :=
  (if blank b.stem then ["Path `stem` is required."] else [])
    ++ (if b.purpose = Purpose.summative ∧ optPresent b.learningObjective = false then
          ["Path `learningObjective` is required."]
        else [])
    ++ (if b.purpose = Purpose.summative ∧ b.bloomsLevel = none then
          ["Path `bloomsLevel` is required."]
        else [])

/-- Field-level errors of one MCQ option (demoSchema.js lines 51-69): `text`
required; `feedback` required exactly when the parent question purpose is
formative (`this.parent().purpose === 'formative'`). -/
def schemaOptionErrors (p : Purpose) (o : MCQOption) : List String :=
  (if blank o.text then ["Path `text` is required."] else [])
    ++ (if p = Purpose.formative ∧ optPresent o.feedback = false then
          ["Path `feedback` is required."]
        else [])

/-- The `options` array rules of `questionSchema` (demoSchema.js lines
106-114): when the document type is mcq, the array must have at least 2
entries, and each option is validated by `mcqOptionSchema`. -/
def schemaMcqErrors (p : Purpose) (options : List MCQOption) : List String :=
  (if options.length < 2 then ["MCQ questions must have at least 2 options"] else [])
    ++ (options.map (schemaOptionErrors p)).flatten

/-- Field-level errors of one ordering item (demoSchema.js lines 72-82):
`text` required, `order` required (always present in the typed model). -/
def schemaItemErrors (it : OrderingItem) : List String :=
  if blank it.text then ["Path `text` is required."] else []

/-- The `items` array rules of `questionSchema` (demoSchema.js lines
116-124): when the document type is ordering, at least 2 items. -/
def schemaOrderingErrors (items : List OrderingItem) : List String :=
  (if items.length < 2 then ["Ordering questions must have at least 2 items"] else [])
    ++ (items.map schemaItemErrors).flatten

/-- The `zones` array rule of `questionSchema` (demoSchema.js lines 126-134):
when the document type is hotspot, at least 1 zone. Zone coordinates and the
optional label carry no further constraints. -/
def schemaHotspotErrors (zones : List HotspotZone) (imageUrl : Option String) : List String :=
  (if zones.length < 1 then ["Hotspot questions must have at least 1 zone"] else [])
    ++ imageUrlError imageUrl

/-- All Mongoose field-level validation errors of `questionSchema` for a
document of the given variant. The count validators are conditional on the
discriminating `type`, which the sum type makes structural: the `options`
rule applies only to the mcq constructor, and so on. -/
def schemaFieldErrors : Question → List String
  | .mcq b opts => schemaBaseErrors b ++ schemaMcqErrors b.purpose opts
  | .ordering b its => schemaBaseErrors b ++ schemaOrderingErrors its
  | .hotspot b zs u => schemaBaseErrors b ++ schemaHotspotErrors zs u

/-- Insert into an ascending list, modelling one step of the JS
`sort((a, b) => a - b)` ascending numeric sort. -/
def insertAsc (x : Int) : List Int → List Int
  | [] => [x]
  | y :: ys => if x ≤ y then x :: y :: ys else y :: insertAsc x ys

/-- Ascending numeric sort, the model of `array.sort((a, b) => a - b)`. -/
def sortAsc (l : List Int) : List Int := l.foldr insertAsc []

/-- The loop of the pre-save ordering check (demoSchema.js lines 203-208):
position `i` of the already-sorted list must hold the value `i`. -/
def seqFromZero : List Int → Nat → Bool
  | [], _ => true
  | o :: rest, i => (o = Int.ofNat i) && seqFromZero rest (i + 1)

/-- The `questionSchema.pre('save')` hook (demoSchema.js lines 181-212): for
mcq, exactly one correct option, then (formative only) no option with falsy
feedback — on the stored document feedback is trimmed, so falsy means absent
or all-whitespace; for ordering, the sorted `order` values must be
`0, 1, …, n-1`. Returns the first raised error, `none` when the hook calls
`next()` cleanly. -/
def preSaveError : Question → Option String
  | .mcq b opts =>
    if (opts.filter (fun o => o.isCorrect)).length ≠ 1 then
      some "MCQ questions must have exactly one correct option"
    else if b.purpose = Purpose.formative ∧ opts.any (fun o => !optPresent o.feedback) then
      some "Formative MCQ questions must have feedback for all options"
    else none
  | .ordering _ its =>
    if seqFromZero (sortAsc (its.map (fun it => it.order))) 0 then none
    else some "Ordering items must have sequential order numbers starting from 0"
  | .hotspot _ _ _ => none

/-- Schema-side persistence gate: a document is committed exactly when every
field-level rule of `questionSchema` passes and the pre-save hook raises no
error (`Question.save` rejects otherwise; no partial write occurs). -/
def schemaAccepts (q : Question) : Bool :=
  (schemaFieldErrors q).isEmpty && (preSaveError q).isNone

example :
    schemaAccepts
      (.mcq { id := "q1", purpose := .formative, stem := "Which?" }
        [{ id := "a", text := "Red", isCorrect := true, feedback := some "yes" },
         { id := "b", text := "Blue", isCorrect := false, feedback := some "no" }]) = true := by
  decide

example :
    schemaAccepts
      (.mcq { id := "q1", purpose := .formative, stem := "Which?" }
        [{ id := "a", text := "Red", isCorrect := true, feedback := some "yes" },
         { id := "b", text := "Blue", isCorrect := true, feedback := some "no" }]) = false := by
  decide

example :
    preSaveError
      (.ordering { id := "q2", purpose := .formative, stem := "Sort" }
        [{ id := "a", text := "A", order := 0 },
         { id := "b", text := "B", order := 2 },
         { id := "c", text := "C", order := 1 }]) = none := by decide

example :
    preSaveError
      (.ordering { id := "q2", purpose := .formative, stem := "Sort" }
        [{ id := "a", text := "A", order := 1 },
         { id := "b", text := "B", order := 2 },
         { id := "c", text := "C", order := 3 }]) =
      some "Ordering items must have sequential order numbers starting from 0" := by decide

example : imageUrlError (some "ftp://x") = ["Image URL must be a valid HTTP/HTTPS URL"] := by
  decide

example : imageUrlError (some " https://x.org ") = [] := by decide

/-- `createEmptyQuestion` (src utils, lines 67-107). The random `generateId`
calls are abstracted by an id supply `ids : Nat → String` consumed in call
order (index 0 is the question id). The stub payloads are exactly those of
the source: 4 options for mcq with the second marked correct, 3 items for
ordering with orders 0, 1, 2, and an empty zone list with `imageUrl = ""`
for hotspot. -/
def createEmptyQuestion (t : QuestionType) (ids : Nat → String) : Question :=
  match t with
  | .mcq =>
    .mcq { id := ids 0, purpose := .formative, stem := "" }
      [{ id := ids 1, text := "", isCorrect := false, feedback := none },
       { id := ids 2, text := "", isCorrect := true, feedback := none },
       { id := ids 3, text := "", isCorrect := false, feedback := none },
       { id := ids 4, text := "", isCorrect := false, feedback := none }]
  | .ordering =>
    .ordering { id := ids 0, purpose := .formative, stem := "" }
      [{ id := ids 1, text := "", order := 0 },
       { id := ids 2, text := "", order := 1 },
       { id := ids 3, text := "", order := 2 }]
  | .hotspot =>
    .hotspot { id := ids 0, purpose := .formative, stem := "" } [] (some "")

/-- `duplicateQuestion` (MainCanvas, lines 42-50): a spread copy of the
question with the freshly generated id (abstracted as `newId`) and the stem
suffixed with `" (Copy)"`; every other field is carried over unchanged. -/
def duplicateQuestion (q : Question) (newId : String) : Question :=
  q.withBase { q.base with id := newId, stem := q.base.stem ++ " (Copy)" }

/-- `finishZone` (HotspotQuestion.tsx, lines 81-92), restricted to its effect
on the zone list: when the in-progress polygon has at least 3 points, a new
zone with those coordinates and the label `Zone <n+1>` is appended; otherwise
the zone list is left unchanged (the in-progress points are discarded either
way). -/
def finishZone (zones : List HotspotZone) (currentZone : List Coordinate)
    (newId : String) : List HotspotZone :=
  if currentZone.length ≥ 3 then
    zones ++ [{ id := newId, coordinates := currentZone,
                label := some ("Zone " ++ toString (zones.length + 1)) }]
  else zones

/-- `.map((item, index) => ({ ...item, order: index }))` of the ordering
editor, as a recursion carrying the next index. -/
def renumberFrom (n : Nat) : List OrderingItem → List OrderingItem
  | [] => []
  | it :: rest => { it with order := Int.ofNat n } :: renumberFrom (n + 1) rest

/-- Renumber every item to its position: `order = index`. -/
def renumber (l : List OrderingItem) : List OrderingItem := renumberFrom 0 l

/-- `addItem` (OrderingQuestion, lines 37-44): append a blank item whose
`order` is the current item count. -/
def addItem (items : List OrderingItem) (newId : String) : List OrderingItem :=
  items ++ [{ id := newId, text := "", order := Int.ofNat items.length }]

/-- `removeItem` (OrderingQuestion, lines 46-53): only when more than 2 items
remain, drop the item with the given id and renumber the rest to their
indices. -/
def removeItem (items : List OrderingItem) (itemId : String) : List OrderingItem :=
  if items.length > 2 then
    renumber (items.filter (fun it => it.id ≠ itemId))
  else items

/-- A JS `splice` start index: negative values count from the end (clamped at
0), positive values are clamped at the length. -/
def jsSpliceIndex (len : Nat) (i : Int) : Nat :=
  if i < 0 then (len + i).toNat else min i.toNat len

/-- dnd-kit `arrayMove(array, from, to)`: remove the element at `from` and
re-insert it at `to`, with JS `splice` index normalization. When `from`
designates no element (JS would insert `undefined`, impossible in the typed
model) the list is returned unchanged; `handleDragEnd` only calls it with
`from` the index of the dragged item. -/
def arrayMove (l : List α) (i j : Int) : List α :=
  let fi := jsSpliceIndex l.length i
  match l[fi]? with
  | none => l
  | some x =>
    let rest := l.eraseIdx fi
    rest.insertIdx (jsSpliceIndex rest.length j) x

/-- JS `findIndex` on the item id: the index of the first match, `-1` when
absent. -/
def findIndexById (items : List OrderingItem) (anId : String) : Int :=
  match items.findIdx? (fun it => it.id = anId) with
  | some n => Int.ofNat n
  | none => -1

/-- `handleDragEnd` (OrderingQuestion, lines 55-67): when the dragged and
target items differ, move the dragged item to the target position and
renumber all items to their new indices. -/
def handleDragEnd (items : List OrderingItem) (activeId overId : String) :
    List OrderingItem :=
  if activeId ≠ overId then
    renumber (arrayMove items (findIndexById items activeId) (findIndexById items overId))
  else items

/-- One editor mutation of an ordering question's item list, with the fresh
or targeted ids as data. -/
inductive EditorOp
  | add (newId : String)
  | remove (itemId : String)
  | drag (activeId overId : String)
deriving DecidableEq, Repr

/-- Apply one editor mutation. -/
def applyOp (items : List OrderingItem) : EditorOp → List OrderingItem
  | .add i => addItem items i
  | .remove i => removeItem items i
  | .drag a b => handleDragEnd items a b

/-- Apply a sequence of editor mutations, oldest first. -/
def applyOps (items : List OrderingItem) (ops : List EditorOp) : List OrderingItem :=
  ops.foldl applyOp items

/-- The sequential-order storage invariant: the items' `order` fields read,
in storage order, exactly `0, 1, …, n-1`. -/
def seqOrders (items : List OrderingItem) : Prop :=
  items.map (fun it => it.order) = (List.range items.length).map Int.ofNat

instance (items : List OrderingItem) : Decidable (seqOrders items) := by
  unfold seqOrders; infer_instance

example :
    applyOps [{ id := "a", text := "A", order := 0 }, { id := "b", text := "B", order := 1 },
              { id := "c", text := "C", order := 2 }]
      [.drag "a" "c", .add "d", .remove "b"] =
    [{ id := "c", text := "C", order := 0 }, { id := "a", text := "A", order := 1 },
     { id := "d", text := "", order := 2 }] := by decide

theorem ite_single_nil {c : Prop} [Decidable c] {e : String} :
    ((if c then [e] else ([] : List String)) = []) ↔ ¬c := by
  by_cases h : c <;> simp [h]

theorem ite_nil_single {c : Prop} [Decidable c] {e : String} :
    ((if c then ([] : List String) else [e]) = []) ↔ c := by
  by_cases h : c <;> simp [h]

theorem clientBaseErrors_nil (b : BaseQuestion) (h : schemaBaseErrors b = []) :
    clientBaseErrors b = [] := by
  unfold schemaBaseErrors at h
  simp only [List.append_eq_nil, ite_single_nil, not_and, Bool.not_eq_true,
    Bool.not_eq_false] at h
  obtain ⟨⟨hstem, hlo⟩, hbl⟩ := h
  unfold clientBaseErrors
  by_cases hp : b.purpose = Purpose.summative
  · simp [hstem, hp, hlo hp, hbl hp]
  · simp [hstem, hp]

theorem schemaOptionErrors_nil (p : Purpose) (o : MCQOption)
    (h : schemaOptionErrors p o = []) :
    blank o.text = false ∧ (p = Purpose.formative → optPresent o.feedback = true) := by
  unfold schemaOptionErrors at h
  simp only [List.append_eq_nil, ite_single_nil, not_and, Bool.not_eq_true,
    Bool.not_eq_false] at h
  exact h

theorem clientMcqErrors_nil (p : Purpose) (opts : List MCQOption)
    (hopts : ∀ o ∈ opts, schemaOptionErrors p o = [])
    (hcorrect : opts.any (fun o => o.isCorrect) = true) :
    clientMcqErrors p opts = [] := by
  have htext : opts.any (fun o => blank o.text) = false := by
    rw [List.any_eq_false]
    intro o ho
    simp [(schemaOptionErrors_nil p o (hopts o ho)).1]
  unfold clientMcqErrors
  by_cases hp : p = Purpose.formative
  · have hfb : opts.any (fun o => !optPresent o.feedback) = false := by
      rw [List.any_eq_false]
      intro o ho
      simp [(schemaOptionErrors_nil p o (hopts o ho)).2 hp]
    simp [hcorrect, htext, hp, hfb]
  · simp [hcorrect, htext, hp]

theorem clientOrderingErrors_nil (items : List OrderingItem)
    (h : schemaOrderingErrors items = []) : clientOrderingErrors items = [] := by
  unfold schemaOrderingErrors at h
  simp only [List.append_eq_nil, ite_single_nil, not_lt, List.flatten_eq_nil_iff] at h
  obtain ⟨hlen, hitems⟩ := h
  have htext : items.any (fun it => blank it.text) = false := by
    rw [List.any_eq_false]
    intro it hit
    have hmem := hitems (schemaItemErrors it) (List.mem_map_of_mem _ hit)
    unfold schemaItemErrors at hmem
    rw [ite_single_nil, Bool.not_eq_true] at hmem
    simp [hmem]
  unfold clientOrderingErrors
  simp [htext, Nat.not_lt.mpr hlen]

theorem preSave_mcq_count (b : BaseQuestion) (opts : List MCQOption)
    (h : preSaveError (.mcq b opts) = none) :
    (opts.filter (fun o => o.isCorrect)).length = 1 := by
  unfold preSaveError at h
  by_cases h1 : (opts.filter (fun o => o.isCorrect)).length = 1
  · exact h1
  · simp [h1] at h

theorem any_correct_of_count_one (opts : List MCQOption)
    (h : (opts.filter (fun o => o.isCorrect)).length = 1) :
    opts.any (fun o => o.isCorrect) = true := by
  have hne : opts.filter (fun o => o.isCorrect) ≠ [] := by
    intro hnil
    rw [hnil] at h
    simp at h
  obtain ⟨o, ho⟩ := List.exists_mem_of_ne_nil _ hne
  rw [List.any_eq_true]
  exact ⟨o, (List.mem_filter.mp ho).1, (List.mem_filter.mp ho).2⟩

/-- C1 (amended): one direction of cross-validator consistency holds — every
Question the Schema-Side Validator accepts (field rules and pre-save pass) is
reported `isValid = true` by the Client-Side Validator. The converse is false
(see the counterexample): the client validator is strictly more permissive. -/
theorem c1_schema_accept_implies_client_valid (q : Question)
    (h : schemaAccepts q = true) : (validateQuestion q).isValid = true := by
  unfold schemaAccepts at h
  rw [Bool.and_eq_true, List.isEmpty_iff, Option.isNone_iff_eq_none] at h
  obtain ⟨hfe, hps⟩ := h
  cases q with
  | mcq b opts =>
    unfold schemaFieldErrors at hfe
    rw [List.append_eq_nil] at hfe
    obtain ⟨hb, hm⟩ := hfe
    unfold schemaMcqErrors at hm
    rw [List.append_eq_nil] at hm
    obtain ⟨-, hflat⟩ := hm
    rw [List.flatten_eq_nil_iff] at hflat
    have hopts : ∀ o ∈ opts, schemaOptionErrors b.purpose o = [] := fun o ho =>
      hflat _ (List.mem_map_of_mem _ ho)
    have hcorrect := any_correct_of_count_one opts (preSave_mcq_count b opts hps)
    unfold validateQuestion
    simp [clientBaseErrors_nil b hb, clientMcqErrors_nil b.purpose opts hopts hcorrect]
  | ordering b its =>
    unfold schemaFieldErrors at hfe
    rw [List.append_eq_nil] at hfe
    obtain ⟨hb, hi⟩ := hfe
    unfold validateQuestion
    simp [clientBaseErrors_nil b hb, clientOrderingErrors_nil its hi]
  | hotspot b zs u =>
    unfold schemaFieldErrors at hfe
    rw [List.append_eq_nil] at hfe
    obtain ⟨hb, hz⟩ := hfe
    unfold schemaHotspotErrors at hz
    rw [List.append_eq_nil] at hz
    obtain ⟨hzl, -⟩ := hz
    rw [ite_single_nil, not_lt] at hzl
    have hzs : ¬zs.length = 0 := by omega
    unfold validateQuestion clientHotspotErrors
    simp [clientBaseErrors_nil b hb, hzs]

/-- C1 witness: a well-formed formative MCQ is accepted by the schema-side
validator, hence (by `c1_schema_accept_implies_client_valid`) client-valid. -/
theorem c1_schema_accept_implies_client_valid_witness :
    (validateQuestion
      (.mcq { id := "q1", purpose := .formative, stem := "Which?" }
        [{ id := "a", text := "Red", isCorrect := true, feedback := some "yes" },
         { id := "b", text := "Blue", isCorrect := false, feedback := some "no" }])).isValid
      = true :=
  c1_schema_accept_implies_client_valid _ (by decide)

/-- C1 counterexample: cross-validator consistency fails as an equivalence.
This formative MCQ (non-empty stem, texts and feedback, two options both
marked correct) is reported valid by the client-side validator, yet the
schema-side pre-save hook rejects it, so acceptance is not mutual. -/
theorem c1_counterexample :
    (validateQuestion
      (.mcq { id := "q1", purpose := .formative, stem := "Which?" }
        [{ id := "a", text := "Red", isCorrect := true, feedback := some "yes" },
         { id := "b", text := "Blue", isCorrect := true, feedback := some "no" }])).isValid
        = true
    ∧ schemaAccepts
      (.mcq { id := "q1", purpose := .formative, stem := "Which?" }
        [{ id := "a", text := "Red", isCorrect := true, feedback := some "yes" },
         { id := "b", text := "Blue", isCorrect := true, feedback := some "no" }])
        = false := by
  constructor <;> decide

theorem schemaFieldErrors_mcq_opts (b : BaseQuestion) (opts : List MCQOption)
    (h : schemaFieldErrors (.mcq b opts) = []) :
    ∀ o ∈ opts, schemaOptionErrors b.purpose o = [] := by
  unfold schemaFieldErrors schemaMcqErrors at h
  rw [List.append_eq_nil] at h
  rw [List.append_eq_nil] at h
  obtain ⟨-, -, hflat⟩ := h
  rw [List.flatten_eq_nil_iff] at hflat
  exact fun o ho => hflat _ (List.mem_map_of_mem _ ho)

theorem preSave_mcq_none_of (b : BaseQuestion) (opts : List MCQOption)
    (hcnt : (opts.filter (fun o => o.isCorrect)).length = 1)
    (hfb : b.purpose = Purpose.formative →
      opts.any (fun o => !optPresent o.feedback) = false) :
    preSaveError (.mcq b opts) = none := by
  unfold preSaveError
  by_cases hp : b.purpose = Purpose.formative
  · simp [hcnt, hp, hfb hp]
  · simp [hcnt, hp]

/-- C2 (amended): the pre-save count rule, isolated from the field-level
rules it is stacked on. For every MCQ Question: whenever the count of correct
options differs from 1, the pre-save hook aborts with the exact error of the
source; and for an MCQ Question that passes the field-level schema rules,
persistence succeeds iff the count of correct options is exactly 1. -/
theorem c2_mcq_exactly_one_correct (b : BaseQuestion) (opts : List MCQOption) :
    ((opts.filter (fun o => o.isCorrect)).length ≠ 1 →
      preSaveError (.mcq b opts) =
        some "MCQ questions must have exactly one correct option")
    ∧ (schemaFieldErrors (.mcq b opts) = [] →
        (schemaAccepts (.mcq b opts) = true ↔
          (opts.filter (fun o => o.isCorrect)).length = 1)) := by
  constructor
  · intro hcnt
    unfold preSaveError
    simp [hcnt]
  · intro hfe
    constructor
    · intro hacc
      unfold schemaAccepts at hacc
      rw [Bool.and_eq_true, Option.isNone_iff_eq_none] at hacc
      exact preSave_mcq_count b opts hacc.2
    · intro hcnt
      have hfb : b.purpose = Purpose.formative →
          opts.any (fun o => !optPresent o.feedback) = false := by
        intro hp
        rw [List.any_eq_false]
        intro o ho
        simp [(schemaOptionErrors_nil b.purpose o
          (schemaFieldErrors_mcq_opts b opts hfe o ho)).2 hp]
      unfold schemaAccepts
      rw [Bool.and_eq_true, List.isEmpty_iff, Option.isNone_iff_eq_none]
      exact ⟨hfe, preSave_mcq_none_of b opts hcnt hfb⟩

/-- C2 witness: a field-valid formative MCQ with two options and exactly one
correct is accepted; the second conjunct is instantiated on it, the first on
the hypothesis count 0 of a correct-free option list. -/
theorem c2_mcq_exactly_one_correct_witness :
    schemaAccepts
      (.mcq { id := "q1", purpose := .formative, stem := "Which?" }
        [{ id := "a", text := "Red", isCorrect := true, feedback := some "yes" },
         { id := "b", text := "Blue", isCorrect := false, feedback := some "no" }]) = true
    ∧ preSaveError
      (.mcq { id := "q1", purpose := .formative, stem := "Which?" }
        [{ id := "a", text := "Red", isCorrect := false, feedback := some "yes" }]) =
        some "MCQ questions must have exactly one correct option" := by
  constructor
  · exact ((c2_mcq_exactly_one_correct _ _).2 (by decide)).mpr (by decide)
  · exact (c2_mcq_exactly_one_correct _ _).1 (by decide)

/-- C2 counterexample: taken as stated — persistence succeeds iff exactly one
correct option — the claim fails: this MCQ has exactly one correct option,
yet the schema rejects it (blank stem, single option), so persistence does
not succeed. -/
theorem c2_counterexample :
    ((([{ id := "a", text := "Red", isCorrect := true,
          feedback := some "yes" }] : List MCQOption).filter
        (fun o => o.isCorrect)).length = 1)
    ∧ schemaAccepts
        (.mcq { id := "q1", purpose := .formative, stem := "" }
          [{ id := "a", text := "Red", isCorrect := true, feedback := some "yes" }]) =
        false := by
  constructor <;> decide

theorem length_insertAsc (x : Int) (l : List Int) :
    (insertAsc x l).length = l.length + 1 := by
  induction l with
  | nil => rfl
  | cons y ys ih =>
    unfold insertAsc
    by_cases h : x ≤ y
    · simp [h]
    · simp [h, ih]

theorem length_sortAsc (l : List Int) : (sortAsc l).length = l.length := by
  induction l with
  | nil => rfl
  | cons x xs ih =>
    show (insertAsc x (sortAsc xs)).length = xs.length + 1
    rw [length_insertAsc, ih]

theorem seqFromZero_iff (l : List Int) (k : Nat) :
    seqFromZero l k = true ↔ l = (List.range' k l.length).map Int.ofNat := by
  induction l generalizing k with
  | nil => simp [seqFromZero]
  | cons o rest ih =>
    rw [List.length_cons, List.range'_succ, List.map_cons]
    unfold seqFromZero
    rw [Bool.and_eq_true, decide_eq_true_iff, ih (k + 1), List.cons.injEq]

/-- C3 (amended): the pre-save sequential-order rule, isolated from the
field-level rules it is stacked on. For every Ordering Question: the pre-save
hook passes iff the ascending sort of the items' `order` values is exactly
`0, 1, …, n-1`; and for an Ordering Question that passes the field-level
schema rules, persistence succeeds iff that same condition holds. -/
theorem c3_ordering_sequential (b : BaseQuestion) (its : List OrderingItem) :
    (preSaveError (.ordering b its) = none ↔
      sortAsc (its.map (fun it => it.order)) = (List.range its.length).map Int.ofNat)
    ∧ (schemaFieldErrors (.ordering b its) = [] →
        (schemaAccepts (.ordering b its) = true ↔
          sortAsc (its.map (fun it => it.order)) =
            (List.range its.length).map Int.ofNat)) := by
  have hkey : preSaveError (.ordering b its) = none ↔
      sortAsc (its.map (fun it => it.order)) = (List.range its.length).map Int.ofNat := by
    have hlen : (sortAsc (its.map (fun it => it.order))).length = its.length := by
      rw [length_sortAsc, List.length_map]
    simp only [preSaveError]
    by_cases h : seqFromZero (sortAsc (its.map (fun it => it.order))) 0 = true
    · have := (seqFromZero_iff _ 0).mp h
      rw [hlen, ← List.range_eq_range'] at this
      rw [if_pos h]
      simp [this]
    · have hne : ¬sortAsc (its.map (fun it => it.order)) =
          (List.range its.length).map Int.ofNat := by
        intro heq
        apply h
        rw [seqFromZero_iff, hlen, ← List.range_eq_range']
        exact heq
      rw [if_neg h]
      simp [hne]
  refine ⟨hkey, fun hfe => ?_⟩
  unfold schemaAccepts
  rw [Bool.and_eq_true, List.isEmpty_iff, Option.isNone_iff_eq_none]
  constructor
  · intro hacc
    exact hkey.mp hacc.2
  · intro hsorted
    exact ⟨hfe, hkey.mpr hsorted⟩

/-- C3 witness: items with orders `[0, 2, 1]` sort to `[0, 1, 2]` and pass
both the pre-save hook and, being field-valid, full persistence. -/
theorem c3_ordering_sequential_witness :
    schemaAccepts
      (.ordering { id := "q2", purpose := .formative, stem := "Sort these" }
        [{ id := "a", text := "A", order := 0 },
         { id := "b", text := "B", order := 2 },
         { id := "c", text := "C", order := 1 }]) = true :=
  ((c3_ordering_sequential _ _).2 (by decide)).mpr (by decide)

/-- C3 counterexample: taken as stated — persistence succeeds iff the sorted
orders are `0..n-1` — the claim fails: this Ordering document has orders
`[0, 1]` (already sequential from 0), yet the schema rejects it because its
stem is blank, so persistence does not succeed. -/
theorem c3_counterexample :
    sortAsc (([{ id := "a", text := "A", order := 0 },
               { id := "b", text := "B", order := 1 }] : List OrderingItem).map
        (fun it => it.order)) =
      (List.range 2).map Int.ofNat
    ∧ schemaAccepts
        (.ordering { id := "q2", purpose := .formative, stem := " " }
          [{ id := "a", text := "A", order := 0 },
           { id := "b", text := "B", order := 1 }]) = false := by
  constructor <;> decide

/-- The variant-specific branch of the client-side validator's error list. -/
def clientVariantErrors : Question → List String
  | .mcq b opts => clientMcqErrors b.purpose opts
  | .ordering _ its => clientOrderingErrors its
  | .hotspot _ zs _ => clientHotspotErrors zs

theorem validateQuestion_errors (q : Question) :
    (validateQuestion q).errors = clientBaseErrors q.base ++ clientVariantErrors q := by
  cases q <;> rfl

theorem validateQuestion_isValid (q : Question) :
    (validateQuestion q).isValid = (validateQuestion q).errors.isEmpty := by
  cases q <;> rfl

/-- The variant-specific part of the schema-side field errors. -/
def schemaVariantErrors : Question → List String
  | .mcq b opts => schemaMcqErrors b.purpose opts
  | .ordering _ its => schemaOrderingErrors its
  | .hotspot _ zs u => schemaHotspotErrors zs u

theorem schemaFieldErrors_eq (q : Question) :
    schemaFieldErrors q = schemaBaseErrors q.base ++ schemaVariantErrors q := by
  cases q <;> rfl

theorem clientInvalid_of_mem {q : Question} {e : String}
    (h : e ∈ (validateQuestion q).errors) : (validateQuestion q).isValid = false := by
  rw [validateQuestion_isValid]
  cases hE : (validateQuestion q).errors with
  | nil => rw [hE] at h; cases h
  | cons x xs => rfl

theorem schemaAccepts_false_of_mem {q : Question} {e : String}
    (h : e ∈ schemaFieldErrors q) : schemaAccepts q = false := by
  unfold schemaAccepts
  cases hE : schemaFieldErrors q with
  | nil => rw [hE] at h; cases h
  | cons x xs => rfl

theorem clientBaseErrors_mem (b : BaseQuestion) :
    ∀ e ∈ clientBaseErrors b,
      e = "Question stem is required"
      ∨ e = "Learning objective is required for summative questions"
      ∨ e = "Bloom\x27s level is required for summative questions" := by
  intro e he
  unfold clientBaseErrors at he
  simp only [List.mem_append] at he
  rcases he with h | h
  · split at h <;> simp_all
  · split at h
    · simp only [List.mem_append] at h
      rcases h with h | h <;> split at h <;> simp_all
    · simp_all

theorem clientMcqErrors_mem (p : Purpose) (opts : List MCQOption) :
    ∀ e ∈ clientMcqErrors p opts,
      e = "At least one option must be marked as correct"
      ∨ e = "All options must have text"
      ∨ (p = Purpose.formative
          ∧ e = "All options must have feedback for formative questions") := by
  intro e he
  unfold clientMcqErrors at he
  simp only [List.mem_append] at he
  rcases he with (h | h) | h
  · split at h <;> simp_all
  · split at h <;> simp_all
  · split at h
    · split at h <;> simp_all
    · simp_all

theorem schemaBaseErrors_mem (b : BaseQuestion) :
    ∀ e ∈ schemaBaseErrors b,
      e = "Path `stem` is required."
      ∨ e = "Path `learningObjective` is required."
      ∨ e = "Path `bloomsLevel` is required." := by
  intro e he
  unfold schemaBaseErrors at he
  simp only [List.mem_append] at he
  rcases he with (h | h) | h <;> split at h <;> simp_all

theorem schemaOptionErrors_mem (p : Purpose) (o : MCQOption) :
    ∀ e ∈ schemaOptionErrors p o,
      e = "Path `text` is required."
      ∨ (p = Purpose.formative ∧ e = "Path `feedback` is required.") := by
  intro e he
  unfold schemaOptionErrors at he
  simp only [List.mem_append] at he
  rcases he with h | h <;> split at h <;> simp_all

/-- C4: conditional-required fields. (1) Every summative Question with an
absent or blank learning objective fails both validators, each with its
objective-specific error. (2) Every formative MCQ in which some option lacks
feedback fails both validators, each with its feedback-specific error.
(3) A summative MCQ is subject to no feedback requirement by either
validator: neither error list mentions feedback and the pre-save hook never
raises the feedback error. -/
theorem c4_conditional_required :
    (∀ q : Question, q.base.purpose = Purpose.summative →
      optPresent q.base.learningObjective = false →
      "Learning objective is required for summative questions"
          ∈ (validateQuestion q).errors
        ∧ (validateQuestion q).isValid = false
        ∧ "Path `learningObjective` is required." ∈ schemaFieldErrors q
        ∧ schemaAccepts q = false)
    ∧ (∀ (b : BaseQuestion) (opts : List MCQOption),
        b.purpose = Purpose.formative →
        (∃ o ∈ opts, optPresent o.feedback = false) →
        "All options must have feedback for formative questions"
            ∈ (validateQuestion (.mcq b opts)).errors
          ∧ (validateQuestion (.mcq b opts)).isValid = false
          ∧ "Path `feedback` is required." ∈ schemaFieldErrors (.mcq b opts)
          ∧ schemaAccepts (.mcq b opts) = false)
    ∧ (∀ (b : BaseQuestion) (opts : List MCQOption),
        b.purpose = Purpose.summative →
        "All options must have feedback for formative questions"
            ∉ (validateQuestion (.mcq b opts)).errors
          ∧ "Path `feedback` is required." ∉ schemaFieldErrors (.mcq b opts)
          ∧ ∀ s, preSaveError (.mcq b opts) = some s →
              s ≠ "Formative MCQ questions must have feedback for all options") := by
  refine ⟨?_, ?_, ?_⟩
  · intro q hp hlo
    have hc : "Learning objective is required for summative questions"
        ∈ clientBaseErrors q.base := by
      unfold clientBaseErrors
      simp [hp, hlo]
    have hmem := (validateQuestion_errors q) ▸ List.mem_append_left (clientVariantErrors q) hc
    have hsb : "Path `learningObjective` is required." ∈ schemaBaseErrors q.base := by
      unfold schemaBaseErrors
      simp [hp, hlo]
    have hmems := (schemaFieldErrors_eq q) ▸ List.mem_append_left (schemaVariantErrors q) hsb
    exact ⟨hmem, clientInvalid_of_mem hmem, hmems, schemaAccepts_false_of_mem hmems⟩
  · intro b opts hp hex
    have hany : opts.any (fun o => !optPresent o.feedback) = true := by
      rw [List.any_eq_true]
      obtain ⟨o, ho, hfb⟩ := hex
      exact ⟨o, ho, by simp [hfb]⟩
    have hc : "All options must have feedback for formative questions"
        ∈ clientMcqErrors b.purpose opts := by
      unfold clientMcqErrors
      simp [hp, hany]
    have hmem : "All options must have feedback for formative questions"
        ∈ (validateQuestion (.mcq b opts)).errors := by
      rw [validateQuestion_errors]
      exact List.mem_append_right _ hc
    obtain ⟨o, ho, hfb⟩ := hex
    have hopt : "Path `feedback` is required." ∈ schemaOptionErrors b.purpose o := by
      unfold schemaOptionErrors
      simp [hp, hfb]
    have hflat : "Path `feedback` is required."
        ∈ (opts.map (schemaOptionErrors b.purpose)).flatten :=
      List.mem_flatten.mpr ⟨_, List.mem_map_of_mem _ ho, hopt⟩
    have hmems : "Path `feedback` is required." ∈ schemaFieldErrors (.mcq b opts) := by
      rw [schemaFieldErrors_eq]
      refine List.mem_append_right _ ?_
      show _ ∈ schemaMcqErrors b.purpose opts
      unfold schemaMcqErrors
      exact List.mem_append_right _ hflat
    exact ⟨hmem, clientInvalid_of_mem hmem, hmems, schemaAccepts_false_of_mem hmems⟩
  · intro b opts hp
    have hnf : ¬b.purpose = Purpose.formative := by
      rw [hp]
      intro hcon
      cases hcon
    refine ⟨?_, ?_, ?_⟩
    · intro hmem
      rw [validateQuestion_errors, List.mem_append] at hmem
      rcases hmem with h | h
      · rcases clientBaseErrors_mem _ _ h with h1 | h1 | h1 <;> revert h1 <;> decide
      · rcases clientMcqErrors_mem _ _ _ h with h1 | h1 | ⟨h1, -⟩
        · revert h1; decide
        · revert h1; decide
        · exact hnf h1
    · intro hmem
      rw [schemaFieldErrors_eq, List.mem_append] at hmem
      rcases hmem with h | h
      · rcases schemaBaseErrors_mem _ _ h with h1 | h1 | h1 <;> revert h1 <;> decide
      · replace h : _ ∈ schemaMcqErrors b.purpose opts := h
        unfold schemaMcqErrors at h
        rw [List.mem_append] at h
        rcases h with h | h
        · split at h <;> simp_all
        · obtain ⟨l, hl, hel⟩ := List.mem_flatten.mp h
          obtain ⟨o, -, rfl⟩ := List.mem_map.mp hl
          rcases schemaOptionErrors_mem _ _ _ hel with h1 | ⟨h1, -⟩
          · revert h1; decide
          · exact hnf h1
    · intro s hs
      simp only [preSaveError] at hs
      by_cases hcnt : (opts.filter (fun o => o.isCorrect)).length ≠ 1
      · rw [if_pos hcnt] at hs
        rw [Option.some.injEq] at hs
        rw [← hs]
        decide
      · rw [if_neg hcnt, if_neg (by simp [hnf])] at hs
        cases hs

/-- C4 witness: a summative question without learning objective is
client-invalid; a formative MCQ with a feedback-free option gets the schema
feedback error; the same option set under summative purpose triggers no
client feedback error. -/
theorem c4_conditional_required_witness :
    (validateQuestion
        (.mcq { id := "q4", purpose := .summative, stem := "S" } [])).isValid = false
    ∧ "Path `feedback` is required."
        ∈ schemaFieldErrors
          (.mcq { id := "q4", purpose := .formative, stem := "S" }
            [{ id := "a", text := "A", isCorrect := true, feedback := none }])
    ∧ "All options must have feedback for formative questions"
        ∉ (validateQuestion
            (.mcq { id := "q4", purpose := .summative, stem := "S" }
              [{ id := "a", text := "A", isCorrect := true, feedback := none }])).errors := by
  refine ⟨?_, ?_, ?_⟩
  · exact (c4_conditional_required.1 _ (by decide) (by decide)).2.1
  · exact (c4_conditional_required.2.1 _ _ (by decide) (by decide)).2.2.1
  · exact (c4_conditional_required.2.2 _ _ (by decide)).1

/-- C5: a hotspot Question with zero zones fails both validators (each with
its zone error), and the editor's `finishZone` does not add a zone from fewer
than 3 drawn points, so any zone found after `finishZone` either was already
there or has at least 3 coordinates. -/
theorem c5_hotspot_minimum :
    (∀ (b : BaseQuestion) (u : Option String),
      "At least one hotspot zone is required"
          ∈ (validateQuestion (.hotspot b [] u)).errors
        ∧ (validateQuestion (.hotspot b [] u)).isValid = false
        ∧ "Hotspot questions must have at least 1 zone"
            ∈ schemaFieldErrors (.hotspot b [] u)
        ∧ schemaAccepts (.hotspot b [] u) = false)
    ∧ (∀ (zones : List HotspotZone) (cur : List Coordinate) (i : String),
        (cur.length < 3 → finishZone zones cur i = zones)
        ∧ ∀ z ∈ finishZone zones cur i, z ∈ zones ∨ 3 ≤ z.coordinates.length) := by
  constructor
  · intro b u
    have hc : "At least one hotspot zone is required"
        ∈ (validateQuestion (.hotspot b [] u)).errors := by
      rw [validateQuestion_errors]
      refine List.mem_append_right _ ?_
      show _ ∈ clientHotspotErrors []
      unfold clientHotspotErrors
      simp
    have hs : "Hotspot questions must have at least 1 zone"
        ∈ schemaFieldErrors (.hotspot b [] u) := by
      rw [schemaFieldErrors_eq]
      refine List.mem_append_right _ ?_
      show _ ∈ schemaHotspotErrors [] u
      unfold schemaHotspotErrors
      refine List.mem_append_left _ ?_
      simp
    exact ⟨hc, clientInvalid_of_mem hc, hs, schemaAccepts_false_of_mem hs⟩
  · intro zones cur i
    constructor
    · intro hlt
      unfold finishZone
      rw [if_neg (by omega)]
    · intro z hz
      unfold finishZone at hz
      by_cases h3 : cur.length ≥ 3
      · rw [if_pos h3] at hz
        rcases List.mem_append.mp hz with h | h
        · exact Or.inl h
        · right
          rw [List.mem_singleton] at h
          rw [h]
          exact h3
      · rw [if_neg h3] at hz
        exact Or.inl hz

/-- C5 witness: a zone-less hotspot question is client-invalid, and finishing
a 2-point polygon leaves the zone list unchanged. -/
theorem c5_hotspot_minimum_witness :
    (validateQuestion
        (.hotspot { id := "q5", purpose := .formative, stem := "Spot" } []
          (some "https://img.example/a.png"))).isValid = false
    ∧ finishZone [] [{ x := 0, y := 0 }, { x := 1, y := 0 }] "z1" = [] := by
  constructor
  · exact (c5_hotspot_minimum.1 _ _).2.1
  · exact (c5_hotspot_minimum.2 [] _ "z1").1 (by decide)

/-- The options of an MCQ question (`[]` for the other variants). -/
def Question.optionsOf : Question → List MCQOption
  | .mcq _ opts => opts
  | _ => []

/-- The zones of a hotspot question (`[]` for the other variants). -/
def Question.zonesOf : Question → List HotspotZone
  | .hotspot _ zs _ => zs
  | _ => []

/-- The image URL of a hotspot question (`none` for the other variants). -/
def Question.imageUrlOf : Question → Option String
  | .hotspot _ _ u => u
  | _ => none

/-- C6: `duplicateQuestion` yields a question whose id is the freshly
generated one (hence differs from the original's whenever the generated id
does), whose stem is the original stem suffixed with `" (Copy)"`, and whose
every other field — purpose, topic, learning objective, Blooms level, type
tag and the whole variant payload — is identical to the original's; and its
client-side validation outcome is exactly that of the original under the
same field values (the original with the suffixed stem; the id plays no role
in validation). -/
theorem c6_duplicate_round_trip (q : Question) (newId : String) :
    (newId ≠ q.base.id → (duplicateQuestion q newId).base.id ≠ q.base.id)
    ∧ (duplicateQuestion q newId).base.id = newId
    ∧ (duplicateQuestion q newId).base.stem = q.base.stem ++ " (Copy)"
    ∧ (duplicateQuestion q newId).base.purpose = q.base.purpose
    ∧ (duplicateQuestion q newId).base.topic = q.base.topic
    ∧ (duplicateQuestion q newId).base.learningObjective = q.base.learningObjective
    ∧ (duplicateQuestion q newId).base.bloomsLevel = q.base.bloomsLevel
    ∧ (duplicateQuestion q newId).qtype = q.qtype
    ∧ (duplicateQuestion q newId).optionsOf = q.optionsOf
    ∧ (duplicateQuestion q newId).itemsOf = q.itemsOf
    ∧ (duplicateQuestion q newId).zonesOf = q.zonesOf
    ∧ (duplicateQuestion q newId).imageUrlOf = q.imageUrlOf
    ∧ validateQuestion (duplicateQuestion q newId) =
        validateQuestion (q.withBase { q.base with stem := q.base.stem ++ " (Copy)" }) := by
  have hid : (duplicateQuestion q newId).base.id = newId := by
    cases q <;> rfl
  refine ⟨fun hne => by rw [hid]; exact hne, hid, ?_⟩
  cases q <;> exact ⟨rfl, rfl, rfl, rfl, rfl, rfl, rfl, rfl, rfl, rfl, rfl⟩

/-- C6 witness: duplicating a concrete MCQ under a fresh id changes the id. -/
theorem c6_duplicate_round_trip_witness :
    (duplicateQuestion
        (.mcq { id := "orig", purpose := .formative, stem := "Q" }
          [{ id := "a", text := "A", isCorrect := true, feedback := some "fb" }])
        "fresh").base.id ≠ "orig" :=
  (c6_duplicate_round_trip _ "fresh").1 (by decide)

/-- C7 (amended): `createEmptyQuestion t` returns a Question of type `t` with
an empty stem (and formative purpose), whose variant payload holds exactly 4
stub options for mcq, 3 stub items for ordering, and 0 zones for hotspot. -/
theorem c7_create_empty (t : QuestionType) (ids : Nat → String) :
    (createEmptyQuestion t ids).qtype = t
    ∧ (createEmptyQuestion t ids).base.stem = ""
    ∧ (createEmptyQuestion t ids).base.purpose = Purpose.formative
    ∧ (createEmptyQuestion t ids).subItemCount =
        (match t with
         | .mcq => 4
         | .ordering => 3
         | .hotspot => 0) := by
  cases t <;> exact ⟨rfl, rfl, rfl, rfl⟩

/-- C7 counterexample: the claim's "between 2 and 4 stub sub-items" fails for
the hotspot type — `createEmptyQuestion('hotspot')` starts with an empty zone
list. -/
theorem c7_counterexample :
    (createEmptyQuestion .hotspot (fun _ => "x")).subItemCount = 0
    ∧ ¬(2 ≤ (createEmptyQuestion .hotspot (fun _ => "x")).subItemCount
        ∧ (createEmptyQuestion .hotspot (fun _ => "x")).subItemCount ≤ 4) := by
  constructor <;> decide

/-- C8: for a hotspot Question, the schema-side `imageUrl` validator is
violated — the URL-format error appears among the field errors — exactly
when `imageUrl` carries a value that is non-empty after trimming and fails
the `^https?://.+` test; an absent (`none`) or blank value never produces the
error. -/
theorem c8_image_url_format :
    (∀ (b : BaseQuestion) (zs : List HotspotZone) (u : Option String),
      "Image URL must be a valid HTTP/HTTPS URL" ∈ schemaFieldErrors (.hotspot b zs u) ↔
        ∃ s, u = some s ∧ blank s = false ∧ matchesHttpUrl (jsTrim s) = false)
    ∧ imageUrlError none = []
    ∧ (∀ s : String, blank s = true → imageUrlError (some s) = []) := by
  refine ⟨?_, rfl, ?_⟩
  · intro b zs u
    constructor
    · intro hmem
      rw [schemaFieldErrors_eq, List.mem_append] at hmem
      rcases hmem with h | h
      · rcases schemaBaseErrors_mem _ _ h with h1 | h1 | h1 <;> exact absurd h1 (by decide)
      · replace h : _ ∈ schemaHotspotErrors zs u := h
        unfold schemaHotspotErrors at h
        rw [List.mem_append] at h
        rcases h with h | h
        · split at h
          · rw [List.mem_singleton] at h
            exact absurd h (by decide)
          · cases h
        · cases u with
          | none => cases h
          | some s =>
            simp only [imageUrlError] at h
            split at h
            · cases h
            · rename_i hcond
              simp only [Bool.or_eq_true, not_or, Bool.not_eq_true] at hcond
              exact ⟨s, rfl, hcond.1, hcond.2⟩
    · rintro ⟨s, rfl, hb, hm⟩
      rw [schemaFieldErrors_eq]
      refine List.mem_append_right _ ?_
      show _ ∈ schemaHotspotErrors zs (some s)
      unfold schemaHotspotErrors
      refine List.mem_append_right _ ?_
      simp only [imageUrlError]
      rw [if_neg (by simp [hb, hm])]
      exact List.mem_singleton.mpr rfl
  · intro s hb
    simp only [imageUrlError]
    rw [if_pos (by simp [hb])]

/-- C8 witness: a whitespace-only url is accepted, and a concrete hotspot
question with `imageUrl = "ftp://files"` carries the URL-format error. -/
theorem c8_image_url_format_witness :
    imageUrlError (some "   ") = []
    ∧ "Image URL must be a valid HTTP/HTTPS URL"
        ∈ schemaFieldErrors
          (.hotspot { id := "q8", purpose := .formative, stem := "S" } []
            (some "ftp://files")) := by
  constructor
  · exact c8_image_url_format.2.2 "   " (by decide)
  · exact (c8_image_url_format.1 _ _ _).mpr ⟨"ftp://files", rfl, by decide, by decide⟩

/-- C9: the client-side validator is deterministic and side-effect free. The
source function only reads its argument and appends to a local array, so it
embeds as the pure function `validateQuestion`; two calls on the same
unmodified document (`q2 = q`) return the same `isValid` and the same error
list in the same order, and the document itself is untouched. -/
theorem c9_validate_deterministic (q q2 : Question) (h : q2 = q) :
    (validateQuestion q2).isValid = (validateQuestion q).isValid
    ∧ (validateQuestion q2).errors = (validateQuestion q).errors := by
  rw [h]
  exact ⟨rfl, rfl⟩

/-- C9 witness: two evaluations on one concrete summative question coincide. -/
theorem c9_validate_deterministic_witness :
    (validateQuestion
        (.ordering { id := "q9", purpose := .summative, stem := "Order" }
          [{ id := "a", text := "A", order := 0 }])).isValid =
      (validateQuestion
        (.ordering { id := "q9", purpose := .summative, stem := "Order" }
          [{ id := "a", text := "A", order := 0 }])).isValid :=
  (c9_validate_deterministic _ _ rfl).1

theorem length_renumberFrom (n : Nat) (l : List OrderingItem) :
    (renumberFrom n l).length = l.length := by
  induction l generalizing n with
  | nil => rfl
  | cons it rest ih => simp [renumberFrom, ih]

theorem map_order_renumberFrom (n : Nat) (l : List OrderingItem) :
    (renumberFrom n l).map (fun it => it.order) =
      (List.range' n l.length).map Int.ofNat := by
  induction l generalizing n with
  | nil => rfl
  | cons it rest ih =>
    rw [List.length_cons, List.range'_succ]
    simp [renumberFrom, ih (n + 1)]

theorem seqOrders_renumber (l : List OrderingItem) : seqOrders (renumber l) := by
  unfold seqOrders renumber
  rw [map_order_renumberFrom, length_renumberFrom, List.range_eq_range']

theorem seqOrders_addItem (items : List OrderingItem) (i : String)
    (h : seqOrders items) : seqOrders (addItem items i) := by
  unfold seqOrders addItem
  unfold seqOrders at h
  rw [List.map_append, List.length_append, h, List.length_singleton,
    List.range_succ, List.map_append]
  rfl

theorem seqOrders_applyOp (items : List OrderingItem) (op : EditorOp)
    (h : seqOrders items) : seqOrders (applyOp items op) := by
  cases op with
  | add i => exact seqOrders_addItem items i h
  | remove i =>
    show seqOrders (removeItem items i)
    unfold removeItem
    split
    · exact seqOrders_renumber _
    · exact h
  | drag a b =>
    show seqOrders (handleDragEnd items a b)
    unfold handleDragEnd
    split
    · exact seqOrders_renumber _
    · exact h

/-- C10: every editor mutation of an ordering question preserves the
sequential-order invariant. Starting from `createEmptyQuestion('ordering')`
(orders 0, 1, 2), any sequence of `addItem` (order = current count),
`removeItem` (renumber to indices) and drag-reorder (renumber the moved list
to indices) leaves the items' `order` values exactly `0 … n-1` in storage
order. -/
theorem c10_ordering_editor_invariant (ids : Nat → String) (ops : List EditorOp) :
    seqOrders (applyOps (Question.itemsOf (createEmptyQuestion .ordering ids)) ops) := by
  have hstep : ∀ (l : List EditorOp) (items : List OrderingItem),
      seqOrders items → seqOrders (applyOps items l) := by
    intro l
    induction l with
    | nil => exact fun items h => h
    | cons op rest ih => exact fun items h => ih _ (seqOrders_applyOp items op h)
  exact hstep ops _ (by unfold seqOrders; rfl)
